import Mathlib

/-!
Verification development for the host-snapshot tool (src/main.rs):
a one-shot program that (1) parses netstat-style connection listings into a
port-to-process mapping and (2) queries a Windows-style event log and
normalizes records, each side serialized to a JSON file.

The Rust source is embedded shallowly:
* machine integers are `Nat`/`Int` with explicit range checks where the code
  checks them (`u16` / `i32` parsing, `i32 -> u32` conversion);
* fallible operations return `Option`/`Except`; a Rust panic
  (`expect`/`unwrap`) is `Except.error`;
* JSON documents are an inductive `Json` tree; serde's derived
  (de)serializers are modelled at that tree level (pretty-printing only
  inserts whitespace and is not modelled);
* stderr diagnostics are modelled as an explicit list of messages.
-/

namespace HostSnapshot

/-! ## JSON documents (serde_json value level) -/

/-- A JSON document.  Numbers are integers: every number the program
serializes or parses is an integer (`u16`, `u32`, `i32`). -/
inductive Json where
  | null : Json
  | bool (b : Bool) : Json
  | num (n : Int) : Json
  | str (s : String) : Json
  | arr (elems : List Json) : Json
  | obj (fields : List (String × Json)) : Json

/-- The keys of a JSON object (in order); `none` when the document is not an
object. -/
def Json.keys : Json → Option (List String)
  | .obj fields => some (fields.map Prod.fst)
  | _ => none

/-- First binding of a key in a JSON object, as serde's map access does. -/
def Json.lookup (j : Json) (k : String) : Option Json :=
  match j with
  | .obj fields => (fields.find? (fun kv => kv.1 = k)).map Prod.snd
  | _ => none

/-! ## Rust string primitives

`split_whitespace`, `split(':')`, `starts_with`, `str::parse::<u16>` and
`str::parse::<i32>` modelled on `List Char` / `String`. -/

/-- Rust `char::is_whitespace`: the Unicode White_Space property. -/
def rustIsWhitespace (c : Char) : Bool :=
  c = ' ' || c = '\t' || c = '\n' || c = '\r' ||
  c = '\x0b' || c = '\x0c' ||
  c.toNat = 0x85 || c.toNat = 0xA0 || c.toNat = 0x1680 ||
  (0x2000 ≤ c.toNat && c.toNat ≤ 0x200A) ||
  c.toNat = 0x2028 || c.toNat = 0x2029 || c.toNat = 0x202F ||
  c.toNat = 0x205F || c.toNat = 0x3000

/-- Split a character list at every character satisfying `p`, keeping empty
segments (Rust `str::split` with a char-class pattern).  The result is never
empty. -/
def splitOnPred (p : Char → Bool) : List Char → List (List Char)
  | [] => [[]]
  | c :: cs =>
    if p c then [] :: splitOnPred p cs
    else
      match splitOnPred p cs with
      | seg :: segs => (c :: seg) :: segs
      | [] => [[c]]

/-- Rust `str::split(':')` (single-character pattern), on a `String`. -/
def splitColon (s : String) : List String :=
  (splitOnPred (fun c => c = ':') s.data).map List.asString

/-- Rust `str::split_whitespace`: split on whitespace and drop empty
segments. -/
def splitWhitespace (s : String) : List String :=
  ((splitOnPred rustIsWhitespace s.data).filter (fun seg => seg ≠ [])).map
    List.asString

/-- Rust `str::starts_with` with a literal pattern. -/
def rustStartsWith (s pre : String) : Bool :=
  pre.data.isPrefixOf s.data

/-- Digits-only reading of a natural number; `none` on an empty list or any
non-ASCII-digit character. -/
def readDigits (cs : List Char) : Option Nat :=
  if cs = [] then none
  else if cs.all Char.isDigit then
    some (cs.foldl (fun acc c => acc * 10 + (c.toNat - 48)) 0)
  else none

/-- Rust `str::parse::<u16>()`: optional leading `+`, then ASCII digits,
value at most `65535`; everything else (including overflow) errors. -/
def parseU16 (s : String) : Option Nat :=
  let body := match s.data with
    | '+' :: rest => rest
    | cs => cs
  match readDigits body with
  | some n => if n ≤ 65535 then some n else none
  | none => none

/-- Rust `str::parse::<i32>()`: optional sign, then ASCII digits, value in
`[-2^31, 2^31 - 1]`; everything else (including overflow) errors. -/
def parseI32 (s : String) : Option Int :=
  match s.data with
  | '-' :: rest =>
    match readDigits rest with
    | some n => if n ≤ 2147483648 then some (-(n : Int)) else none
    | none => none
  | '+' :: rest =>
    match readDigits rest with
    | some n => if n ≤ 2147483647 then some (n : Int) else none
    | none => none
  | cs =>
    match readDigits cs with
    | some n => if n ≤ 2147483647 then some (n : Int) else none
    | none => none

/-! ## Connection table parser (`parse_netstat_output`) -/

/-- The entries `parse_netstat_output` pushes for one input line: `[]` when
the line is skipped or fails a parse step, one `(port, pid)` pair otherwise.
Mirrors the loop body of `parse_netstat_output` in src/main.rs. -/
def parseNetstatLine (line : String) : List (Nat × Int) :=
  if rustStartsWith line "Proto" || line = "" then []
  else
    let parts := splitWhitespace line
    if 5 ≤ parts.length then
      match (splitColon (parts.getD 1 "")).getLast? with
      | some portStr =>
        match parseU16 portStr, parseI32 (parts.getD 4 "") with
        | some port, some pid => [(port, pid)]
        | some _, none => []
        | none, _ => []
      | none => []
    else []

/-- `parse_netstat_output`: fold over the lines, pushing each line's
entries. -/
def parse_netstat_output (output : List String) : List (Nat × Int) :=
  output.foldl (fun acc line => acc ++ parseNetstatLine line) []

/-! ## Process table and port aggregator (`match_processes_to_ports`) -/

/-- One record of the serialized snapshot (Rust `ProcessInfo`):
`{ pid: i32, name: String, ports: Vec<u16> }`. -/
structure ProcessInfo where
  pid : Int
  name : String
  ports : List Nat
deriving Repr, DecidableEq

/-- The serialized root entity (Rust `ProcessPortList`). -/
structure ProcessPortList where
  processes : List ProcessInfo
deriving Repr, DecidableEq

/-- The process table snapshot `sysinfo` delivers: process ids are `u32`
(`sysinfo::Pid::from_u32`), each mapped to a display name.  `system.processes()`
is a map; we model it as an association list queried by first match. -/
def lookupName (table : List (Nat × String)) (pid : Nat) : Option String :=
  (table.find? (fun kv => kv.1 = pid)).map Prod.snd

/-- Append `port` to the ports of the first record carrying `pid`
(Rust `iter_mut().find(|p| p.pid == pid)` followed by `info.ports.push(port)`). -/
def appendPort : List ProcessInfo → Int → Nat → List ProcessInfo
  | [], _, _ => []
  | p :: ps, pid, port =>
    if p.pid = pid then { p with ports := p.ports ++ [port] } :: ps
    else p :: appendPort ps pid port

/-- One iteration of the loop in `match_processes_to_ports`.  The code first
evaluates `pid.try_into().unwrap()` (`i32 -> u32`), which panics when `pid`
is negative; then looks the pid up in the process table; a missing pid leaves
the accumulator unchanged. -/
def matchStep (table : List (Nat × String)) (acc : List ProcessInfo)
    (entry : Nat × Int) : Except String (List ProcessInfo) :=
  let (port, pid) := entry
  if pid < 0 then
    Except.error "called `Result::unwrap()` on an `Err` value: TryFromIntError"
  else
    match lookupName table pid.toNat with
    | none => Except.ok acc
    | some name =>
      if acc.any (fun p => p.pid = pid) then
        Except.ok (appendPort acc pid port)
      else
        Except.ok (acc ++ [{ pid := pid, name := name, ports := [port] }])

/-- `match_processes_to_ports`: fold the loop body over the connection
entries, starting from an empty record list.  An `Except.error` is the Rust
panic aborting the program. -/
def match_processes_to_ports (table : List (Nat × String))
    (process_ports : List (Nat × Int)) : Except String (List ProcessInfo) :=
  process_ports.foldlM (matchStep table) []

/-! ## Event structures and normalizer (`fetch_and_parse_events`) -/

/-- Normalized event record (Rust `EventInfo`): the projection written to
`events.json`. -/
structure EventInfo where
  event_id : Nat
  provider_name : String
  level : Nat
deriving Repr, DecidableEq

/-- A raw structured log entry as the XML deserializer sees it: a `System`
section whose required fields may each be missing (a missing or malformed
field makes `serde_xml_rs::from_str::<Event>` return `Err`). -/
structure RawSystem where
  providerName : Option String
  eventId : Option Nat
  level : Option Nat
deriving Repr, DecidableEq

/-- A raw log document: the root may be missing its `System` section. -/
structure RawDoc where
  system : Option RawSystem
deriving Repr, DecidableEq

/-- The target of deserialization (Rust nested structs
`Event`/`System`/`Provider`), flattened to its three required leaves. -/
structure Event where
  providerName : String
  eventId : Nat
  level : Nat
deriving Repr, DecidableEq

/-- `serde_xml_rs::from_str::<Event>`: succeeds exactly when every required
field is structurally present. -/
def parseEventDoc (d : RawDoc) : Except String Event :=
  match d.system with
  | none => Except.error "missing field `System`"
  | some sys =>
    match sys.providerName, sys.eventId, sys.level with
    | some name, some eid, some lvl =>
      Except.ok { providerName := name, eventId := eid, level := lvl }
    | none, _, _ => Except.error "missing field `Name`"
    | some _, none, _ => Except.error "missing field `EventID`"
    | some _, some _, none => Except.error "missing field `Level`"

/-- One iteration of the loop in `fetch_and_parse_events`: push an
`EventInfo` when the document deserializes, a stderr diagnostic when it does
not.  The state is (records so far, diagnostics so far). -/
def normStep (st : List EventInfo × List String) (d : RawDoc) :
    List EventInfo × List String :=
  match parseEventDoc d with
  | Except.ok ev =>
    (st.1 ++ [{ event_id := ev.eventId, provider_name := ev.providerName,
                level := ev.level }], st.2)
  | Except.error e => (st.1, st.2 ++ ["Error parsing event: " ++ e])

/-- `fetch_and_parse_events`: on fetch failure, one diagnostic and no
records (this is not a fatal program error); on success, fold the
per-document loop body over the fetched documents.  Returns
(records, stderr diagnostics). -/
def fetch_and_parse_events (fetched : Except String (List RawDoc)) :
    List EventInfo × List String :=
  match fetched with
  | Except.error e => ([], ["Error fetching events: " ++ e])
  | Except.ok docs => docs.foldl normStep ([], [])

/-- The record a structurally valid document contributes, `none` for a
skipped document. -/
def normalizeDoc (d : RawDoc) : Option EventInfo :=
  match parseEventDoc d with
  | Except.ok ev =>
    some { event_id := ev.eventId, provider_name := ev.providerName,
           level := ev.level }
  | Except.error _ => none

/-! ## Log query builder (`win_event_log` descriptor built in `main`) -/

/-- The comparison operators of the query DSL (`win_event_log::Comparison`);
the crate renders each into the like-named numeric XPath operator
(`GreaterThanOrEqual` becomes `Level >= n`). -/
inductive Comparison where
  | Equal
  | GreaterThan
  | LessThan
  | GreaterThanOrEqual
  | LessThanOrEqual
deriving Repr, DecidableEq

/-- `EventFilter::level(n, cmp)`: compare a record's numeric level against
`n` with `cmp`. -/
structure EventFilter where
  level : Nat
  comparison : Comparison
deriving Repr, DecidableEq

/-- Conditions of the query DSL: a leaf filter or an OR of conditions
(`Condition::filter`, `Condition::or`). -/
inductive Condition where
  | filter (f : EventFilter) : Condition
  | orOf (cs : List Condition) : Condition

/-- `QueryItem::selector(channel).system_conditions(cond).build()`:
one channel with its condition. -/
structure QueryItem where
  selector : String
  conditions : Condition

/-- `Query`: a list of items, one per channel. -/
structure Query where
  items : List QueryItem

/-- `QueryList`: the multi-channel query descriptor. -/
structure QueryList where
  queries : List Query

/-- Numeric meaning of a comparison on (record level, threshold). -/
def Comparison.holds : Comparison → Nat → Nat → Bool
  | .Equal, l, t => l = t
  | .GreaterThan, l, t => t < l
  | .LessThan, l, t => l < t
  | .GreaterThanOrEqual, l, t => t ≤ l
  | .LessThanOrEqual, l, t => l ≤ t

mutual

/-- A condition holds on a record of numeric level `l`. -/
def Condition.holds : Condition → Nat → Bool
  | .filter f, l => f.comparison.holds l f.level
  | .orOf cs, l => holdsAny cs l

/-- Some condition of the list holds (logical OR). -/
def holdsAny : List Condition → Nat → Bool
  | [], _ => false
  | c :: cs, l => c.holds l || holdsAny cs l

end

/-- The query keeps a record of channel `ch` and numeric level `l` iff some
item of some query selects that channel and its condition holds on `l`. -/
def QueryList.keeps (ql : QueryList) (ch : String) (l : Nat) : Bool :=
  ql.queries.any (fun q =>
    q.items.any (fun it => it.selector = ch && it.conditions.holds l))

/-- The severity conditions built in `main`:
`vec![Condition::filter(EventFilter::level(1, Comparison::GreaterThanOrEqual))]`. -/
def mainConditions : List Condition :=
  [Condition.filter { level := 1, comparison := Comparison.GreaterThanOrEqual }]

/-- The query descriptor built in `main`: one query holding an item for the
"Application" channel and an item for the "System" channel, each with
`Condition::or(mainConditions)` as its system conditions. -/
def mainQuery : QueryList :=
  { queries :=
      [{ items :=
          [{ selector := "Application", conditions := Condition.orOf mainConditions },
           { selector := "System", conditions := Condition.orOf mainConditions }] }] }

/-! ## Serialization (serde derives, at the JSON document level) -/

/-- Derived `Serialize` for `EventInfo`.  The struct carries
`#[serde(rename_all = "PascalCase")]`, which renames the fields for both
serialization and deserialization: `event_id` ↦ `EventId`,
`provider_name` ↦ `ProviderName`, `level` ↦ `Level`. -/
def serializeEventInfo (e : EventInfo) : Json :=
  Json.obj
    [("EventId", Json.num e.event_id),
     ("ProviderName", Json.str e.provider_name),
     ("Level", Json.num e.level)]

/-- The document `save_events_to_file` writes: the `Vec<EventInfo>` itself,
i.e. a JSON array with no wrapping object. -/
def eventsDocument (events : List EventInfo) : Json :=
  Json.arr (events.map serializeEventInfo)

/-- Derived `Serialize` for `ProcessInfo` (no rename attribute: field names
are used verbatim). -/
def serializeProcessInfo (p : ProcessInfo) : Json :=
  Json.obj
    [("pid", Json.num p.pid),
     ("name", Json.str p.name),
     ("ports", Json.arr (p.ports.map (fun n => Json.num n)))]

/-- The document `save_process_info_to_file` writes: the record list wrapped
in a `ProcessPortList`, a single-key `processes` object. -/
def processPortsDocument (l : List ProcessInfo) : Json :=
  Json.obj [("processes", Json.arr (l.map serializeProcessInfo))]

/-- Derived `Deserialize` for a `u16` list element. -/
def jsonToU16 (j : Json) : Option Nat :=
  match j with
  | Json.num n => if 0 ≤ n ∧ n ≤ 65535 then some n.toNat else none
  | _ => none

/-- Derived `Deserialize` for `ProcessInfo`: all three fields required, each
of the right shape, `pid` in `i32` range, ports each in `u16` range. -/
def deserializeProcessInfo (j : Json) : Option ProcessInfo :=
  match j.lookup "pid", j.lookup "name", j.lookup "ports" with
  | some (Json.num pid), some (Json.str name), some (Json.arr portsJson) =>
    if -2147483648 ≤ pid ∧ pid ≤ 2147483647 then
      match portsJson.mapM jsonToU16 with
      | some ports => some { pid := pid, name := name, ports := ports }
      | none => none
    else none
  | _, _, _ => none

/-- Derived `Deserialize` for `ProcessPortList`: the required `processes`
field, an array of records. -/
def deserializeProcessPortList (j : Json) : Option ProcessPortList :=
  match j.lookup "processes" with
  | some (Json.arr elems) =>
    match elems.mapM deserializeProcessInfo with
    | some procs => some { processes := procs }
    | none => none
  | _ => none

/-! ## The program (`main`), as a function of its external collaborators -/

/-- The external world `main` consumes: the Connection Lister's stdout
(`none` when the `netstat` command fails to launch), the process table
snapshot, the Log Source's response to the query, and whether each output
file can be created/written. -/
structure World where
  netstatStdout : Option (List String)
  processTable : List (Nat × String)
  fetchResult : Except String (List RawDoc)
  processFileOk : Bool
  eventsFileOk : Bool

/-- Observable outcome of a run: the JSON documents written, keyed by file
name, in write order. -/
structure RunOutput where
  files : List (String × Json)

/-- `main`, sequentially: port pipeline (netstat → parse → aggregate →
write `process_ports.json`), then event pipeline (query → fetch/normalize →
write `events.json`).  `Except.error` is a panic aborting the program:
`get_netstat_output` panics when the command fails to launch
(`.expect("Failed to run netstat")`), the aggregator panics on a negative
pid, and `save_process_info_to_file` panics when the file cannot be created
or written.  `save_events_to_file` errors are caught and only reported. -/
def runMain (w : World) : Except String RunOutput :=
  match w.netstatStdout with
  | none => Except.error "Failed to run netstat"
  | some lines =>
    match match_processes_to_ports w.processTable (parse_netstat_output lines) with
    | Except.error e => Except.error e
    | Except.ok process_info_list =>
      if w.processFileOk then
        let portFiles := [("process_ports.json", processPortsDocument process_info_list)]
        let extracted_events := (fetch_and_parse_events w.fetchResult).1
        let eventFiles :=
          if w.eventsFileOk then [("events.json", eventsDocument extracted_events)]
          else []
        Except.ok { files := portFiles ++ eventFiles }
      else Except.error "Unable to create file"

/-- The document a run wrote to file `name`, `none` when the run aborted or
never wrote that file. -/
def writtenFile (r : Except String RunOutput) (name : String) : Option Json :=
  match r with
  | Except.error _ => none
  | Except.ok out => (out.files.find? (fun kv => kv.1 = name)).map Prod.snd

/-! ## Derived notions used by the statements -/

/-- The trailing segment after the last `:` of `s` — the whole of `s` when it
has no colon: what `split(':').last()` yields. -/
def lastColonSegment (s : String) : String :=
  (splitColon s).getLastD ""

/-- Whether the record list already carries a record for `pid`. -/
def hasPid (l : List ProcessInfo) (pid : Int) : Bool :=
  l.any (fun p => p.pid = pid)

/-- Ports of the first record carrying `pid` (`[]` when there is none). -/
def portsFor (l : List ProcessInfo) (pid : Int) : List Nat :=
  ((l.find? (fun p => p.pid = pid)).map ProcessInfo.ports).getD []

/-- The loop body of `match_processes_to_ports` without the `i32 -> u32`
panic; on entries with a nonnegative pid it agrees with `matchStep`. -/
def pureStep (table : List (Nat × String)) (acc : List ProcessInfo)
    (entry : Nat × Int) : List ProcessInfo :=
  match lookupName table entry.2.toNat with
  | none => acc
  | some name =>
    if acc.any (fun p => p.pid = entry.2) then appendPort acc entry.2 entry.1
    else acc ++ [{ pid := entry.2, name := name, ports := [entry.1] }]

/-- The stderr diagnostic a raw document contributes (`none` when it
normalizes successfully). -/
def docDiag (d : RawDoc) : Option String :=
  match parseEventDoc d with
  | Except.ok _ => none
  | Except.error e => some ("Error parsing event: " ++ e)

/-! ## Helper lemmas: the connection table parser -/

theorem splitOnPred_ne_nil (p : Char → Bool) (cs : List Char) :
    splitOnPred p cs ≠ [] := by
  induction cs with
  | nil => simp [splitOnPred]
  | cons c cs ih =>
    rw [splitOnPred]
    by_cases h : p c
    · simp [h]
    · simp only [h]
      cases hs : splitOnPred p cs with
      | nil => exact absurd hs ih
      | cons seg segs => simp

theorem splitColon_ne_nil (s : String) : splitColon s ≠ [] := by
  intro h
  have := splitOnPred_ne_nil (fun c => c = ':') s.data
  simp only [splitColon, List.map_eq_nil_iff] at h
  exact this h

theorem getLast?_splitColon (s : String) :
    (splitColon s).getLast? = some (lastColonSegment s) := by
  cases h : (splitColon s).getLast? with
  | none => exact absurd (List.getLast?_eq_none_iff.mp h) (splitColon_ne_nil s)
  | some seg =>
    have : lastColonSegment s = seg := by
      simp [lastColonSegment, List.getLastD_eq_getLast?, h]
    rw [this]

theorem splitOnPred_of_no_match (p : Char → Bool) (cs : List Char)
    (h : ∀ c ∈ cs, p c = false) : splitOnPred p cs = [cs] := by
  induction cs with
  | nil => rfl
  | cons c cs ih =>
    have hc : p c = false := h c (List.mem_cons_self c cs)
    have ht : splitOnPred p cs = [cs] := ih fun x hx => h x (List.mem_cons_of_mem c hx)
    rw [splitOnPred, hc]
    simp [ht]

theorem asString_data (s : String) : List.asString s.data = s := by
  cases s
  rfl

theorem lastColonSegment_of_no_colon (s : String) (h : ':' ∉ s.data) :
    lastColonSegment s = s := by
  have : splitOnPred (fun c => c = ':') s.data = [s.data] := by
    refine splitOnPred_of_no_match _ _ fun c hc => ?_
    simp only [decide_eq_false_iff_not]
    intro he
    exact h (he ▸ hc)
  simp [lastColonSegment, splitColon, this, asString_data]

theorem splitWhitespace_empty : splitWhitespace "" = [] := rfl

theorem parseNetstatLine_eq_of_valid {line : String} {port : Nat} {pid : Int}
    (h1 : rustStartsWith line "Proto" = false)
    (h2 : 5 ≤ (splitWhitespace line).length)
    (h3 : parseU16 (lastColonSegment ((splitWhitespace line).getD 1 "")) = some port)
    (h4 : parseI32 ((splitWhitespace line).getD 4 "") = some pid) :
    parseNetstatLine line = [(port, pid)] := by
  have hne : line ≠ "" := by
    intro h
    rw [h, splitWhitespace_empty] at h2
    simp at h2
  simp only [parseNetstatLine, h1, hne, Bool.false_or, decide_eq_true_eq,
    if_neg (by simp [h1, hne] : ¬(rustStartsWith line "Proto" || line = "") = true),
    if_pos h2, getLast?_splitColon, h3, h4]
  simp

theorem parse_netstat_output_singleton (line : String) :
    parse_netstat_output [line] = parseNetstatLine line := by
  simp [parse_netstat_output]

/-! ## Helper lemmas: the record normalizer -/

theorem foldl_normStep (docs : List RawDoc) (a : List EventInfo)
    (b : List String) :
    docs.foldl normStep (a, b) =
      (a ++ docs.filterMap normalizeDoc, b ++ docs.filterMap docDiag) := by
  induction docs generalizing a b with
  | nil => simp
  | cons d ds ih =>
    rw [List.foldl_cons]
    cases h : parseEventDoc d with
    | ok ev =>
      simp [normStep, h, ih, normalizeDoc, docDiag, List.filterMap_cons]
    | error e =>
      simp [normStep, h, ih, normalizeDoc, docDiag, List.filterMap_cons]

/-! ## Helper lemmas: the port aggregator -/

theorem appendPort_map_pid (l : List ProcessInfo) (pid : Int) (port : Nat) :
    (appendPort l pid port).map ProcessInfo.pid = l.map ProcessInfo.pid := by
  induction l with
  | nil => rfl
  | cons p ps ih =>
    rw [appendPort]
    by_cases h : p.pid = pid
    · simp [h]
    · simp [h, ih]

theorem hasPid_appendPort (l : List ProcessInfo) (pid' pid : Int) (port : Nat) :
    hasPid (appendPort l pid' port) pid = hasPid l pid := by
  induction l with
  | nil => rfl
  | cons p ps ih =>
    rw [appendPort]
    by_cases h : p.pid = pid'
    · simp [hasPid, List.any_cons, h]
    · simp only [h, if_false]
      simp only [hasPid, List.any_cons] at ih ⊢
      rw [ih]

theorem portsFor_eq_nil_of_not_hasPid (l : List ProcessInfo) (pid : Int)
    (h : hasPid l pid = false) : portsFor l pid = [] := by
  have : l.find? (fun p => p.pid = pid) = none :=
    List.find?_eq_none.mpr (List.any_eq_false.mp h)
  simp [portsFor, this]

theorem portsFor_append (l₁ l₂ : List ProcessInfo) (pid : Int) :
    portsFor (l₁ ++ l₂) pid =
      if hasPid l₁ pid then portsFor l₁ pid else portsFor l₂ pid := by
  unfold portsFor
  rw [List.find?_append]
  by_cases h : hasPid l₁ pid
  · obtain ⟨x, hx⟩ := Option.isSome_iff_exists.mp
      (List.find?_isSome.mpr (List.any_eq_true.mp h))
    simp [h, hx, Option.or]
  · have : l₁.find? (fun p => p.pid = pid) = none :=
      List.find?_eq_none.mpr (List.any_eq_false.mp (Bool.of_not_eq_true h))
    simp [h, this, Option.or]

theorem portsFor_appendPort_same (l : List ProcessInfo) (pid : Int) (port : Nat)
    (h : hasPid l pid = true) :
    portsFor (appendPort l pid port) pid = portsFor l pid ++ [port] := by
  induction l with
  | nil => simp [hasPid] at h
  | cons p ps ih =>
    rw [appendPort]
    by_cases hp : p.pid = pid
    · rw [if_pos hp]
      unfold portsFor
      rw [List.find?_cons_of_pos _ (by simpa using hp),
          List.find?_cons_of_pos _ (by simpa using hp)]
      rfl
    · have hps : hasPid ps pid = true := by
        simpa [hasPid, List.any_cons, hp] using h
      rw [if_neg hp]
      unfold portsFor
      rw [List.find?_cons_of_neg _ (by simpa using hp),
          List.find?_cons_of_neg _ (by simpa using hp)]
      exact ih hps

theorem portsFor_appendPort_ne (l : List ProcessInfo) (pid' pid : Int)
    (port : Nat) (h : pid' ≠ pid) :
    portsFor (appendPort l pid' port) pid = portsFor l pid := by
  induction l with
  | nil => rfl
  | cons p ps ih =>
    rw [appendPort]
    by_cases hp : p.pid = pid'
    · have hne : ¬ p.pid = pid := by
        intro hc
        exact h (by rw [← hp, hc])
      rw [if_pos hp]
      unfold portsFor
      rw [List.find?_cons_of_neg _ (by simpa using hne),
          List.find?_cons_of_neg _ (by simpa using hne)]
    · rw [if_neg hp]
      by_cases hq : p.pid = pid
      · unfold portsFor
        rw [List.find?_cons_of_pos _ (by simpa using hq),
            List.find?_cons_of_pos _ (by simpa using hq)]
      · unfold portsFor
        rw [List.find?_cons_of_neg _ (by simpa using hq),
            List.find?_cons_of_neg _ (by simpa using hq)]
        exact ih

theorem matchStep_eq_pureStep (table : List (Nat × String))
    (acc : List ProcessInfo) (entry : Nat × Int) (h : 0 ≤ entry.2) :
    matchStep table acc entry = Except.ok (pureStep table acc entry) := by
  obtain ⟨port, pid⟩ := entry
  simp only [matchStep, pureStep]
  rw [if_neg (by simpa using h : ¬ pid < 0)]
  cases hl : lookupName table pid.toNat with
  | none => rfl
  | some name =>
    by_cases ha : acc.any (fun p => p.pid = pid) <;> simp [ha]

theorem foldlM_matchStep_ok (table : List (Nat × String)) :
    ∀ (entries : List (Nat × Int)) (acc : List ProcessInfo),
      (∀ e ∈ entries, 0 ≤ e.2) →
      entries.foldlM (matchStep table) acc =
        Except.ok (entries.foldl (pureStep table) acc)
  | [], _, _ => rfl
  | e :: es, acc, h => by
    have he : 0 ≤ e.2 := h e (List.mem_cons_self e es)
    have hes : ∀ x ∈ es, 0 ≤ x.2 := fun x hx => h x (List.mem_cons_of_mem e hx)
    rw [List.foldlM_cons, matchStep_eq_pureStep table acc e he]
    show es.foldlM (matchStep table) (pureStep table acc e) = _
    rw [foldlM_matchStep_ok table es (pureStep table acc e) hes]
    rfl

theorem foldl_pureStep_nodup (table : List (Nat × String)) :
    ∀ (entries : List (Nat × Int)) (acc : List ProcessInfo),
      (acc.map ProcessInfo.pid).Nodup →
      ((entries.foldl (pureStep table) acc).map ProcessInfo.pid).Nodup
  | [], _, h => h
  | e :: es, acc, h => by
    rw [List.foldl_cons]
    refine foldl_pureStep_nodup table es _ ?_
    cases hl : lookupName table e.2.toNat with
    | none => simpa [pureStep, hl] using h
    | some name =>
      simp only [pureStep, hl]
      by_cases ha : acc.any (fun p => p.pid = e.2)
      · rw [if_pos ha, appendPort_map_pid]
        exact h
      · have ha' : ∀ p ∈ acc, ¬ p.pid = e.2 := by
          have := List.any_eq_false.mp (Bool.of_not_eq_true ha)
          simpa using this
        rw [if_neg ha, List.map_append, List.nodup_append]
        refine ⟨h, by simp, ?_⟩
        intro a hmem hmem2
        simp only [List.map_cons, List.map_nil, List.mem_singleton] at hmem2
        obtain ⟨p, hp, hpa⟩ := List.mem_map.mp hmem
        exact ha' p hp (by rw [hpa, hmem2])

theorem foldl_pureStep_hasPid (table : List (Nat × String)) (pid : Int)
    (name : String) (hpid : lookupName table pid.toNat = some name) :
    ∀ (entries : List (Nat × Int)) (acc : List ProcessInfo),
      hasPid (entries.foldl (pureStep table) acc) pid =
        (hasPid acc pid || entries.any (fun e => e.2 = pid))
  | [], acc => by simp
  | e :: es, acc => by
    rw [List.foldl_cons, foldl_pureStep_hasPid table pid name hpid es _]
    have hstep : hasPid (pureStep table acc e) pid =
        (hasPid acc pid || decide (e.2 = pid)) := by
      by_cases hee : e.2 = pid
      · simp only [pureStep, hee, hpid]
        by_cases ha : acc.any (fun p => p.pid = pid)
        · rw [if_pos ha, hasPid_appendPort]
          simp [hasPid, ha]
        · rw [if_neg ha]
          simp [hasPid, List.any_append]
      · cases hl : lookupName table e.2.toNat with
        | none => simp [pureStep, hl, hee]
        | some name' =>
          simp only [pureStep, hl]
          by_cases ha : acc.any (fun p => p.pid = e.2)
          · rw [if_pos ha, hasPid_appendPort]
            simp [hee]
          · rw [if_neg ha]
            simp [hasPid, List.any_append, hee]
    rw [hstep, List.any_cons, Bool.or_assoc]

theorem foldl_pureStep_portsFor (table : List (Nat × String)) (pid : Int)
    (name : String) (hpid : lookupName table pid.toNat = some name) :
    ∀ (entries : List (Nat × Int)) (acc : List ProcessInfo),
      portsFor (entries.foldl (pureStep table) acc) pid =
        portsFor acc pid ++ (entries.filter (fun e => e.2 = pid)).map Prod.fst
  | [], acc => by simp
  | e :: es, acc => by
    rw [List.foldl_cons, foldl_pureStep_portsFor table pid name hpid es _]
    have hstep : portsFor (pureStep table acc e) pid =
        portsFor acc pid ++ (if e.2 = pid then [e.1] else []) := by
      by_cases hee : e.2 = pid
      · simp only [pureStep, hee, hpid]
        by_cases ha : acc.any (fun p => p.pid = pid)
        · have ha' : hasPid acc pid = true := ha
          rw [if_pos ha, portsFor_appendPort_same acc pid e.1 ha']
          simp
        · have ha' : hasPid acc pid = false := Bool.of_not_eq_true ha
          rw [if_neg ha, portsFor_append, ha',
            portsFor_eq_nil_of_not_hasPid acc pid ha']
          simp [portsFor, List.find?]
      · cases hl : lookupName table e.2.toNat with
        | none => simp [pureStep, hl, hee]
        | some name' =>
          simp only [pureStep, hl]
          by_cases ha : acc.any (fun p => p.pid = e.2)
          · rw [if_pos ha, portsFor_appendPort_ne acc e.2 pid e.1 hee]
            simp [hee]
          · rw [if_neg ha, portsFor_append]
            by_cases hb : hasPid acc pid
            · rw [if_pos hb]
              simp [hee]
            · have hb' : hasPid acc pid = false := Bool.of_not_eq_true hb
              rw [hb', portsFor_eq_nil_of_not_hasPid acc pid hb']
              simp [portsFor, List.find?, hee]
    rw [hstep, List.filter_cons]
    by_cases hee : e.2 = pid <;> simp [hee, List.append_assoc]

theorem find?_pid_eq_of_mem_of_nodup :
    ∀ (l : List ProcessInfo) (r : ProcessInfo),
      (l.map ProcessInfo.pid).Nodup → r ∈ l →
      l.find? (fun p => p.pid = r.pid) = some r
  | [], r, _, hr => absurd hr (List.not_mem_nil r)
  | p :: ps, r, hnd, hr => by
    rcases List.mem_cons.mp hr with hr | hr
    · subst hr
      simp [List.find?]
    · have hnd' : (ps.map ProcessInfo.pid).Nodup := (List.nodup_cons.mp hnd).2
      have hnp : p.pid ∉ ps.map ProcessInfo.pid := (List.nodup_cons.mp hnd).1
      have hne : ¬ p.pid = r.pid := by
        intro hc
        exact hnp (hc ▸ List.mem_map.mpr ⟨r, hr, rfl⟩)
      rw [List.find?_cons_of_neg _ (by simpa using hne)]
      exact find?_pid_eq_of_mem_of_nodup ps r hnd' hr

theorem filter_pid_length_one :
    ∀ (l : List ProcessInfo) (pid : Int),
      (l.map ProcessInfo.pid).Nodup → hasPid l pid = true →
      (l.filter (fun r => r.pid = pid)).length = 1
  | [], pid, _, hl => by simp [hasPid] at hl
  | p :: ps, pid, hnd, hl => by
    have hnd' : (ps.map ProcessInfo.pid).Nodup := (List.nodup_cons.mp hnd).2
    have hnp : p.pid ∉ ps.map ProcessInfo.pid := (List.nodup_cons.mp hnd).1
    rw [List.filter_cons]
    by_cases hp : p.pid = pid
    · have hnone : ps.filter (fun r => r.pid = pid) = [] := by
        rw [List.filter_eq_nil_iff]
        intro r hr
        simp only [decide_eq_true_eq]
        intro hc
        exact hnp (hp ▸ hc ▸ List.mem_map.mpr ⟨r, hr, rfl⟩)
      simp [hp, hnone]
    · have hps : hasPid ps pid = true := by
        simpa [hasPid, List.any_cons, hp] using hl
      rw [if_neg (by simpa using hp)]
      exact filter_pid_length_one ps pid hnd' hps

/-! ## The claims -/

/-- C6 (amended: the line must additionally not begin with `"Proto"`, the
header skip): an input line with at least 5 whitespace-separated fields,
whose local-address field (field 2) has a trailing segment after its last
`:` parsing as a valid `u16`, and whose 5th field parses as a valid `i32`,
yields exactly one connection entry carrying that (port, pid) pair. -/
theorem claim6_wellformed_line_parses {line : String} {port : Nat} {pid : Int}
    (hproto : rustStartsWith line "Proto" = false)
    (hfields : 5 ≤ (splitWhitespace line).length)
    (hport : parseU16 (lastColonSegment ((splitWhitespace line).getD 1 "")) = some port)
    (hpid : parseI32 ((splitWhitespace line).getD 4 "") = some pid) :
    parse_netstat_output [line] = [(port, pid)] := by
  rw [parse_netstat_output_singleton]
  exact parseNetstatLine_eq_of_valid hproto hfields hport hpid

/-- Witness for C6: a concrete well-formed netstat row parses to its
(port, pid) pair. -/
theorem claim6_wellformed_line_parses_witness :
    parse_netstat_output ["TCP 0.0.0.0:135 0.0.0.0:0 LISTENING 1000"] =
      [(135, 1000)] :=
  claim6_wellformed_line_parses (by decide) (by decide) (by decide) (by decide)

/-- Counterexample for C6 as stated: a line beginning with `"Proto"` meets
every stated hypothesis (5 fields, valid port 80, valid pid 42) yet is
skipped by the header check and yields no entry. -/
theorem claim6_counterexample :
    5 ≤ (splitWhitespace "Proto 0.0.0.0:80 0.0.0.0:0 LISTENING 42").length ∧
    parseU16 (lastColonSegment
      ((splitWhitespace "Proto 0.0.0.0:80 0.0.0.0:0 LISTENING 42").getD 1 "")) = some 80 ∧
    parseI32 ((splitWhitespace "Proto 0.0.0.0:80 0.0.0.0:0 LISTENING 42").getD 4 "") = some 42 ∧
    parse_netstat_output ["Proto 0.0.0.0:80 0.0.0.0:0 LISTENING 42"] = [] := by
  refine ⟨by decide, by decide, by decide, by decide⟩

/-- C10: port extraction never fails for lack of a colon — `split(':')`
always yields a last segment; with no colon in the field that segment is the
whole field; concretely, a bare numeric local-address field `"8080"` and a
bracketed IPv6 `"[::1]:8080"` both yield a connection entry with port
8080. -/
theorem claim10_port_from_last_colon_segment :
    (∀ s : String, (splitColon s).getLast? = some (lastColonSegment s)) ∧
    (∀ s : String, ':' ∉ s.data → lastColonSegment s = s) ∧
    parse_netstat_output ["TCP 8080 0.0.0.0:0 LISTENING 99"] = [(8080, 99)] ∧
    parse_netstat_output ["TCP [::1]:8080 0.0.0.0:0 LISTENING 99"] = [(8080, 99)] :=
  ⟨getLast?_splitColon, lastColonSegment_of_no_colon, by decide, by decide⟩

/-- Witness for C10: the no-colon clause at the concrete field `"8080"`. -/
theorem claim10_port_from_last_colon_segment_witness :
    lastColonSegment "8080" = "8080" :=
  claim10_port_from_last_colon_segment.2.1 "8080" (by decide)

/-- C8: for every batch of raw log documents, normalization keeps exactly
the structurally valid documents (projected to event id, provider name and
level, in delivery order) and emits one diagnostic per skipped document; on
the concrete batch of one valid document (provider "Kernel", event id 41,
level 2) and one missing the provider name, the output is exactly that
single record plus one diagnostic. -/
theorem claim8_normalizer_partial_success :
    (∀ docs : List RawDoc,
      fetch_and_parse_events (Except.ok docs) =
        (docs.filterMap normalizeDoc, docs.filterMap docDiag)) ∧
    fetch_and_parse_events (Except.ok
        [{ system := some { providerName := some "Kernel", eventId := some 41,
                            level := some 2 } },
         { system := some { providerName := none, eventId := some 41,
                            level := some 2 } }]) =
      ([{ event_id := 41, provider_name := "Kernel", level := 2 }],
       ["Error parsing event: missing field `Name`"]) := by
  constructor
  · intro docs
    show docs.foldl normStep ([], []) = _
    rw [foldl_normStep]
    simp
  · decide

/-- C5 (amended: restricted to nonnegative process ids — the aggregator
evaluates `pid.try_into().unwrap()` before the table lookup and panics on
any negative id): a connection entry whose nonnegative process id is absent
from the process table contributes zero records and does not error — the
aggregation result is the same with and without that entry. -/
theorem claim5_absent_pid_contributes_nothing
    (table : List (Nat × String)) (pre post : List (Nat × Int))
    (port : Nat) (pid : Int) (hnn : 0 ≤ pid)
    (habs : lookupName table pid.toNat = none) :
    match_processes_to_ports table (pre ++ (port, pid) :: post) =
      match_processes_to_ports table (pre ++ post) := by
  unfold match_processes_to_ports
  rw [List.foldlM_append, List.foldlM_append]
  cases h : List.foldlM (matchStep table) [] pre with
  | error e => rfl
  | ok acc =>
    show (matchStep table acc (port, pid) >>=
        fun acc' => List.foldlM (matchStep table) acc' post) = _
    have hstep : matchStep table acc (port, pid) = Except.ok acc := by
      simp [matchStep, habs, not_lt.mpr hnn]
    rw [hstep]

/-- Witness for C5: dropping the concrete entry `(9, 5)` (pid 5 absent from
the table) leaves the aggregation result unchanged. -/
theorem claim5_absent_pid_contributes_nothing_witness :
    match_processes_to_ports [(7, "x")] ([(1, 7)] ++ (9, 5) :: [(2, 7)]) =
      match_processes_to_ports [(7, "x")] ([(1, 7)] ++ [(2, 7)]) :=
  claim5_absent_pid_contributes_nothing [(7, "x")] [(1, 7)] [(2, 7)] 9 5
    (by decide) (by decide)

/-- Counterexample for C5 as stated: for the i32 process id `-1`, absent
from the (empty) process table, the aggregation errors (the Rust code panics
in `pid.try_into().unwrap()`) instead of silently discarding the entry. -/
theorem claim5_counterexample :
    lookupName [] ((-1 : Int)).toNat = none ∧
    match_processes_to_ports [] [(80, -1)] =
      Except.error "called `Result::unwrap()` on an `Err` value: TryFromIntError" :=
  ⟨rfl, rfl⟩

/-- C7 (amended: under the additional hypothesis that every entry's process
id is nonnegative, since any negative id makes the aggregator panic): a
process id present in the process table and appearing in N connection
entries with N distinct ports yields exactly one record, whose ports
sequence has length N and lists those ports in discovery order, and process
ids are unique across the records. -/
theorem claim7_one_record_per_pid
    (table : List (Nat × String)) (entries : List (Nat × Int))
    (pid : Int) (name : String) (N : Nat)
    (hnn : ∀ e ∈ entries, 0 ≤ e.2)
    (hname : lookupName table pid.toNat = some name)
    (hN : (entries.filter (fun e => e.2 = pid)).length = N)
    (hpos : 1 ≤ N)
    (_hdistinct : ((entries.filter (fun e => e.2 = pid)).map Prod.fst).Nodup) :
    ∃ l, match_processes_to_ports table entries = Except.ok l ∧
      (l.filter (fun r => r.pid = pid)).length = 1 ∧
      (∀ r ∈ l, r.pid = pid →
        r.ports = (entries.filter (fun e => e.2 = pid)).map Prod.fst ∧
        r.ports.length = N) ∧
      (l.map ProcessInfo.pid).Nodup := by
  refine ⟨entries.foldl (pureStep table) [], foldlM_matchStep_ok table entries [] hnn,
    ?_, ?_, ?_⟩
  · refine filter_pid_length_one _ pid (foldl_pureStep_nodup table entries [] (by simp)) ?_
    rw [foldl_pureStep_hasPid table pid name hname entries []]
    have hne : entries.filter (fun e => e.2 = pid) ≠ [] := by
      intro hc
      rw [hc] at hN
      simp at hN
      omega
    obtain ⟨e, he⟩ := List.exists_mem_of_ne_nil _ hne
    obtain ⟨hmem, hp⟩ := List.mem_filter.mp he
    simp only [hasPid, List.any_nil, Bool.false_or]
    exact List.any_eq_true.mpr ⟨e, hmem, hp⟩
  · intro r hr hrpid
    have hfind : (entries.foldl (pureStep table) []).find? (fun p => p.pid = r.pid) = some r :=
      find?_pid_eq_of_mem_of_nodup _ r (foldl_pureStep_nodup table entries [] (by simp)) hr
    have hports : portsFor (entries.foldl (pureStep table) []) pid =
        (entries.filter (fun e => e.2 = pid)).map Prod.fst := by
      rw [foldl_pureStep_portsFor table pid name hname entries []]
      rfl
    have : portsFor (entries.foldl (pureStep table) []) pid = r.ports := by
      rw [← hrpid] at hports ⊢
      simp [portsFor, hfind]
    rw [← this, hports]
    exact ⟨rfl, by simp [hN]⟩
  · exact foldl_pureStep_nodup table entries [] (by simp)

/-- Witness for C7: pid 5, present in the table and appearing in two entries
with two distinct ports, yields exactly one record with ports [80, 443]. -/
theorem claim7_one_record_per_pid_witness :
    ∃ l, match_processes_to_ports [(5, "svc")] [(80, 5), (443, 5)] = Except.ok l ∧
      (l.filter (fun r => r.pid = 5)).length = 1 ∧
      (∀ r ∈ l, r.pid = 5 →
        r.ports = (([(80, 5), (443, 5)] : List (Nat × Int)).filter
          (fun e => e.2 = 5)).map Prod.fst ∧
        r.ports.length = 2) ∧
      (l.map ProcessInfo.pid).Nodup :=
  claim7_one_record_per_pid [(5, "svc")] [(80, 5), (443, 5)] 5 "svc" 2
    (by decide) (by decide) (by decide) (by decide) (by decide)

/-- Counterexample for C7 as stated: pid 5 is in the table and appears in
exactly one entry with one (trivially distinct) port, but a later entry
carries pid -1, on which the aggregation panics — so no snapshot (and no
record for pid 5) is produced. -/
theorem claim7_counterexample :
    lookupName [(5, "svc")] ((5 : Int)).toNat = some "svc" ∧
    (([(80, 5), (81, -1)] : List (Nat × Int)).filter (fun e => e.2 = 5)).length = 1 ∧
    ((([(80, 5), (81, -1)] : List (Nat × Int)).filter
      (fun e => e.2 = 5)).map Prod.fst).Nodup ∧
    match_processes_to_ports [(5, "svc")] [(80, 5), (81, -1)] =
      Except.error "called `Result::unwrap()` on an `Err` value: TryFromIntError" :=
  ⟨rfl, by decide, by decide, rfl⟩

/-- C1 (amended: the comparison the query descriptor carries is the numeric
greater-or-equal, not less-or-equal): for both channels, the built query
keeps a record exactly when its numeric level is at least the configured
threshold of 1. -/
theorem claim1_level_filter (l : Nat) :
    (QueryList.keeps mainQuery "Application" l = true ↔ 1 ≤ l) ∧
    (QueryList.keeps mainQuery "System" l = true ↔ 1 ≤ l) := by
  constructor <;>
    simp [QueryList.keeps, mainQuery, mainConditions, Condition.holds,
      holdsAny, Comparison.holds]

/-- Counterexample for C1 as stated: a record of numeric level 2 in the
"Application" channel is kept by the built query although 2 is not less than
or equal to the threshold 1. -/
theorem claim1_counterexample :
    QueryList.keeps mainQuery "Application" 2 = true ∧ ¬ (2 ≤ 1) := by decide

/-- C2 (amended: the keys carry the PascalCase rename, not plain lower-case
names): serializing the extracted events produces a JSON array with no
wrapping object whose elements are objects keyed `EventId`, `ProviderName`,
`Level`, holding the corresponding record fields. -/
theorem claim2_events_json_shape (events : List EventInfo) :
    ∃ elems, eventsDocument events = Json.arr elems ∧
      List.Forall₂ (fun (e : EventInfo) (j : Json) =>
        j.keys = some ["EventId", "ProviderName", "Level"] ∧
        j.lookup "EventId" = some (Json.num e.event_id) ∧
        j.lookup "ProviderName" = some (Json.str e.provider_name) ∧
        j.lookup "Level" = some (Json.num e.level)) events elems := by
  refine ⟨events.map serializeEventInfo, rfl, ?_⟩
  rw [List.forall₂_map_right_iff, List.forall₂_same]
  intro e he
  refine ⟨rfl, ?_, ?_, ?_⟩ <;> simp [serializeEventInfo, Json.lookup, List.find?]

/-- Counterexample for C2 as stated: the serialized object's keys are
`EventId`, `ProviderName`, `Level`, not the plain lower-case `event_id`,
`provider_name`, `level` the claim names. -/
theorem claim2_counterexample :
    eventsDocument [{ event_id := 41, provider_name := "Kernel", level := 2 }] =
      Json.arr [Json.obj [("EventId", Json.num 41),
        ("ProviderName", Json.str "Kernel"), ("Level", Json.num 2)]] ∧
    (serializeEventInfo { event_id := 41, provider_name := "Kernel", level := 2 }).keys ≠
      some ["event_id", "provider_name", "level"] :=
  ⟨rfl, by decide⟩

/-- C3 (amended: a launch failure of the Connection Lister makes
`get_netstat_output` panic, aborting the program before anything is
written; `process_ports.json` contains the empty-collection document
`{"processes": []}` only when the command launches and its output yields no
connection entries). -/
theorem claim3_launch_failure_aborts :
    (∀ (table : List (Nat × String)) (fr : Except String (List RawDoc))
        (pOk eOk : Bool),
      runMain { netstatStdout := none, processTable := table, fetchResult := fr,
                processFileOk := pOk, eventsFileOk := eOk } =
        Except.error "Failed to run netstat") ∧
    (∀ (table : List (Nat × String)) (fr : Except String (List RawDoc))
        (eOk : Bool) (lines : List String),
      parse_netstat_output lines = [] →
      writtenFile (runMain { netstatStdout := some lines, processTable := table,
                             fetchResult := fr, processFileOk := true,
                             eventsFileOk := eOk }) "process_ports.json" =
        some (Json.obj [("processes", Json.arr [])])) := by
  constructor
  · intro table fr pOk eOk
    rfl
  · intro table fr eOk lines hp
    simp only [runMain, hp]
    have hm : match_processes_to_ports table [] = Except.ok [] := rfl
    rw [hm]
    cases eOk <;> rfl

/-- Witness for C3 (amended): with a launched Connection Lister producing no
rows, the program writes `process_ports.json` as `{"processes": []}`. -/
theorem claim3_launch_failure_aborts_witness :
    writtenFile (runMain { netstatStdout := some [], processTable := [],
                           fetchResult := Except.ok [], processFileOk := true,
                           eventsFileOk := true }) "process_ports.json" =
      some (Json.obj [("processes", Json.arr [])]) :=
  claim3_launch_failure_aborts.2 [] (Except.ok []) true [] rfl

/-- Counterexample for C3 as stated: when the Connection Lister cannot be
invoked the program aborts with the `Failed to run netstat` panic and no
`process_ports.json` is written at all. -/
theorem claim3_counterexample :
    runMain { netstatStdout := none, processTable := [], fetchResult := Except.ok [],
              processFileOk := true, eventsFileOk := true } =
      Except.error "Failed to run netstat" ∧
    writtenFile (runMain { netstatStdout := none, processTable := [],
                           fetchResult := Except.ok [], processFileOk := true,
                           eventsFileOk := true }) "process_ports.json" = none :=
  ⟨rfl, rfl⟩

/-- C4 (amended: isolation holds in one direction only — the event
pipeline's inputs and failures never affect what the port pipeline writes
to `process_ports.json`, and whenever the program completes, `events.json`
is written even after a fetch failure; but a panic in the port pipeline
aborts the program before the event pipeline runs). -/
theorem claim4_pipeline_isolation :
    (∀ (w : World) (fr : Except String (List RawDoc)) (eOk : Bool),
      writtenFile (runMain { w with fetchResult := fr, eventsFileOk := eOk })
          "process_ports.json" =
        writtenFile (runMain w) "process_ports.json") ∧
    (∀ (w : World) (out : RunOutput), runMain w = Except.ok out →
      w.eventsFileOk = true →
      writtenFile (runMain w) "events.json" =
        some (eventsDocument (fetch_and_parse_events w.fetchResult).1)) := by
  constructor
  · intro w fr eOk
    obtain ⟨ns, table, fr₀, pOk, eOk₀⟩ := w
    cases ns with
    | none => rfl
    | some lines =>
      simp only [runMain]
      cases hm : match_processes_to_ports table (parse_netstat_output lines) with
      | error e => rfl
      | ok pil =>
        cases pOk with
        | false => rfl
        | true =>
          cases eOk <;> cases eOk₀ <;>
            simp [writtenFile, List.find?]
  · intro w out hok hev
    obtain ⟨ns, table, fr₀, pOk, eOk₀⟩ := w
    cases ns with
    | none => exact absurd hok (by simp [runMain])
    | some lines =>
      simp only [runMain] at hok ⊢
      cases hm : match_processes_to_ports table (parse_netstat_output lines) with
      | error e => rw [hm] at hok; exact absurd hok (by simp)
      | ok pil =>
        rw [hm] at hok
        cases pOk with
        | false => exact absurd hok (by simp)
        | true =>
          simp only at hev
          subst hev
          simp [writtenFile, List.find?]

/-- Witness for C4 (amended): concretely, an event-side fetch failure leaves
the port pipeline's output unchanged, and `events.json` is still written
(here as the empty array) when the program completes. -/
theorem claim4_pipeline_isolation_witness :
    writtenFile (runMain { netstatStdout := some [], processTable := [],
                           fetchResult := Except.error "query rejected",
                           processFileOk := true, eventsFileOk := true })
        "process_ports.json" =
      writtenFile (runMain { netstatStdout := some [], processTable := [],
                             fetchResult := Except.ok [], processFileOk := true,
                             eventsFileOk := true }) "process_ports.json" ∧
    writtenFile (runMain { netstatStdout := some [], processTable := [],
                           fetchResult := Except.error "query rejected",
                           processFileOk := true, eventsFileOk := true })
        "events.json" =
      some (eventsDocument []) := by
  constructor
  · have h := claim4_pipeline_isolation.1
      { netstatStdout := some [], processTable := [], fetchResult := Except.ok [],
        processFileOk := true, eventsFileOk := true }
      (Except.error "query rejected") true
    exact h
  · have h := claim4_pipeline_isolation.2
      { netstatStdout := some [], processTable := [],
        fetchResult := Except.error "query rejected", processFileOk := true,
        eventsFileOk := true }
      { files := [("process_ports.json", Json.obj [("processes", Json.arr [])]),
                  ("events.json", Json.arr [])] }
      (by rfl) (by rfl)
    exact h

/-- Counterexample for C4 as stated: a catastrophic failure in the
port-correlation pipeline (the Connection Lister fails to launch) aborts the
program, so the event-extraction pipeline never runs and `events.json` is
not written, although every event-side input is healthy. -/
theorem claim4_counterexample :
    runMain { netstatStdout := none, processTable := [], fetchResult := Except.ok [],
              processFileOk := true, eventsFileOk := true } =
      Except.error "Failed to run netstat" ∧
    writtenFile (runMain { netstatStdout := none, processTable := [],
                           fetchResult := Except.ok [], processFileOk := true,
                           eventsFileOk := true }) "events.json" = none :=
  ⟨rfl, rfl⟩

/-- C9: serializing the snapshot holding the single record
`{pid: 1234, name: "svc.exe", ports: [80, 443]}` and parsing the produced
JSON document back recovers the identical structure. -/
theorem claim9_roundtrip :
    deserializeProcessPortList (processPortsDocument
      [{ pid := 1234, name := "svc.exe", ports := [80, 443] }]) =
      some { processes := [{ pid := 1234, name := "svc.exe", ports := [80, 443] }] } := by
  decide

end HostSnapshot
